import Mathlib

/-!
Verification of the streaming chat client of `openai-agents-chat-app`.

The development shallowly embeds the TypeScript sources:
* `src/lib/streaming/client.ts` — SSE frame decoder (`processStream`),
  event normalizer (`handleEvent` / `handleRawResponse` / `handleRunItem`),
  retry logic (`handleStreamError`);
* the `useAgentStream` hook — session reducer callbacks
  (`updateTextContent`, `onToolOutput`, item construction);
* `src/lib/streaming/types.ts` — `transformDatabaseMessagesToItems`.

JavaScript strings are modelled as `List Char`/`String`; `JSON.parse` is
modelled by an executable recursive-descent JSON parser; non-determinism of
`Date.now()`/`Math.random()` inside `generateCallId` is modelled by a
per-client counter (only freshness/non-collision matters to the code).
-/

namespace AgentsChat

/-! ## Definitions -/

/-- Brace characters, used when building or matching JSON text. -/
def braceOpen : Char := Char.ofNat 123

/-- Closing brace character. -/
def braceClose : Char := Char.ofNat 125

/-- Tests whether `pat` is a leading segment of `l` (JS `String.prototype.startsWith`). -/
def listStartsWith : List Char → List Char → Bool
  | [], _ => true
  | _ :: _, [] => false
  | p :: ps, c :: cs => p == c && listStartsWith ps cs

/-- JS `String.prototype.includes`: `pat` occurs contiguously in `l`. -/
def hasSub : List Char → List Char → Bool
  | l, pat =>
    if listStartsWith pat l then true
    else
      match l with
      | [] => false
      | _ :: cs => hasSub cs pat

/-- Whitespace removed by JS `String.prototype.trim` (the characters that
occur in this code base are ASCII; the full Unicode white-space set of JS is
irrelevant to the payloads handled here). -/
def jsTrimWs (c : Char) : Bool :=
  c == ' ' || c == '\t' || c == '\n' || c == '\r' ||
  c == Char.ofNat 11 || c == Char.ofNat 12 || c == Char.ofNat 160 ||
  c == Char.ofNat 65279

/-- JS `String.prototype.trim`: strip whitespace from both ends. -/
def trimList (l : List Char) : List Char :=
  ((l.dropWhile jsTrimWs).reverse.dropWhile jsTrimWs).reverse

/-- JS `str.split('\n')`: always returns at least one (possibly empty)
piece; newline separators are dropped. -/
def splitNl : List Char → List (List Char)
  | [] => [[]]
  | c :: cs =>
    if c == '\n' then [] :: splitNl cs
    else
      match splitNl cs with
      | [] => [[c]]
      | l :: ls => (c :: l) :: ls

/-- Last element of a list, with a default (JS `lines.pop() || ''`). -/
def lastD : List (List Char) → List Char
  | [] => []
  | [l] => l
  | _ :: l :: ls => lastD (l :: ls)

/-- The payload a single SSE line contributes, if any: lines starting with
`"data: "` have the rest sliced off and trimmed; empty payloads are ignored
(`if (eventData)`).  From `processStream` in `client.ts`. -/
def linePayload (line : List Char) : Option (List Char) :=
  if listStartsWith ("data: ".data) line then
    let eventData := trimList (line.drop 6)
    if eventData.isEmpty then none else some eventData
  else
    none

/-- Payloads of a list of complete lines, in order. -/
def framesOf (lines : List (List Char)) : List (List Char) :=
  lines.filterMap linePayload

/-- One `reader.read()` step of `processStream`: append the chunk to the
buffer, split on newlines, keep the (possibly incomplete) last line as the
new buffer and yield the complete lines. -/
def feedChunk (buffer chunk : List Char) : List (List Char) × List Char :=
  let lines := splitNl (buffer ++ chunk)
  (lines.dropLast, lastD lines)

/-- Feed a list of chunks through the decoder, returning all complete lines
(in order) and the final buffer. -/
def feedAll (buffer : List Char) : List (List Char) → List (List Char) × List Char
  | [] => ([], buffer)
  | c :: cs =>
    let step := feedChunk buffer c
    let rest := feedAll step.2 cs
    (step.1 ++ rest.1, rest.2)

/-- End-of-stream flush of `processStream`: if the trimmed buffer is
non-empty it is split into lines and its `data: ` payloads are processed. -/
def flushFrames (buffer : List Char) : List (List Char) :=
  if (trimList buffer).isEmpty then [] else framesOf (splitNl buffer)

/-- The full frame decoder: the sequence of frame payloads produced by
`processStream` for a given sequence of text chunks. -/
def decodePayloads (chunks : List (List Char)) : List (List Char) :=
  let fed := feedAll [] chunks
  framesOf fed.1 ++ flushFrames fed.2

/-- Prepend a character onto the first line of a split result. -/
def consHead (c : Char) : List (List Char) → List (List Char)
  | [] => [[c]]
  | l :: ls => (c :: l) :: ls

inductive Json where
  | null
  | bool (b : Bool)
  | num (lexeme : String)
  | str (s : String)
  | arr (elements : List Json)
  | obj (fields : List (String × Json))

/-- JSON insignificant whitespace. -/
def jsWsJson (c : Char) : Bool :=
  c == ' ' || c == '\t' || c == '\n' || c == '\r'

/-- Value of a hexadecimal digit. -/
def hexVal (c : Char) : Option Nat :=
  if c.isDigit then some (c.toNat - 48)
  else if 'a' ≤ c && c ≤ 'f' then some (c.toNat - 87)
  else if 'A' ≤ c && c ≤ 'F' then some (c.toNat - 55)
  else none

/-- Parse the body of a JSON string after the opening quote, returning the
decoded characters and the remaining input.  Lone surrogates from `\u`
escapes are not representable in `Char`; they do not occur in this
application's payloads. -/
def parseStringBody : List Char → Option (List Char × List Char)
  | [] => none
  | c :: cs =>
    if c == '"' then some ([], cs)
    else if c == '\\' then
      match cs with
      | [] => none
      | e :: es =>
        if e == 'u' then
          match es with
          | h1 :: h2 :: h3 :: h4 :: rest =>
            match hexVal h1, hexVal h2, hexVal h3, hexVal h4 with
            | some a, some b, some c2, some d =>
              (parseStringBody rest).map fun pr =>
                (Char.ofNat (((a * 16 + b) * 16 + c2) * 16 + d) :: pr.1, pr.2)
            | _, _, _, _ => none
          | _ => none
        else
          let esc : Option Char :=
            if e == '"' then some '"'
            else if e == '\\' then some '\\'
            else if e == '/' then some '/'
            else if e == 'b' then some (Char.ofNat 8)
            else if e == 'f' then some (Char.ofNat 12)
            else if e == 'n' then some '\n'
            else if e == 'r' then some '\r'
            else if e == 't' then some '\t'
            else none
          match esc with
          | some ch => (parseStringBody es).map fun pr => (ch :: pr.1, pr.2)
          | none => none
    else if c.toNat < 32 then none
    else (parseStringBody cs).map fun pr => (c :: pr.1, pr.2)

/-- Parse a JSON number token, returning its lexeme and the rest. -/
def parseNumber (l : List Char) : Option (List Char × List Char) :=
  let signSplit :=
    match l with
    | c :: cs => if c == '-' then ([c], cs) else (([] : List Char), l)
    | [] => ([], l)
  let sign := signSplit.1
  let r1 := signSplit.2
  match r1 with
  | [] => none
  | c :: cs =>
    if !c.isDigit then none
    else
      let ipartSplit :=
        if c == '0' then ([c], cs)
        else (r1.takeWhile Char.isDigit, r1.dropWhile Char.isDigit)
      let ipart := ipartSplit.1
      let irest := ipartSplit.2
      let fracSplit : Option (List Char) × List Char :=
        match irest with
        | d :: ds =>
          if d == '.' then
            let f := ds.takeWhile Char.isDigit
            (if f.isEmpty then none else some (d :: f), ds.dropWhile Char.isDigit)
          else (some [], irest)
        | [] => (some [], irest)
      match fracSplit.1 with
      | none => none
      | some fp =>
        let frest := fracSplit.2
        let expSplit : Option (List Char) × List Char :=
          match frest with
          | e :: es =>
            if e == 'e' || e == 'E' then
              let sgn :=
                match es with
                | s :: ss => if s == '+' || s == '-' then ([s], ss) else (([] : List Char), es)
                | [] => ([], es)
              let dg := sgn.2.takeWhile Char.isDigit
              (if dg.isEmpty then none else some (e :: (sgn.1 ++ dg)),
                sgn.2.dropWhile Char.isDigit)
            else (some [], frest)
          | [] => (some [], frest)
        match expSplit.1 with
        | none => none
        | some ep => some (sign ++ ipart ++ fp ++ ep, expSplit.2)

mutual

/-- Fuel-indexed JSON value parser; the fuel passed by `jsonParse` is always
sufficient since every nested call consumes input. -/
def parseValue : Nat → List Char → Option (Json × List Char)
  | 0, _ => none
  | Nat.succ fuel, l =>
    let s := l.dropWhile jsWsJson
    match s with
    | [] => none
    | c :: cs =>
      if c == '"' then
        (parseStringBody cs).map fun pr => (Json.str (String.mk pr.1), pr.2)
      else if c == braceOpen then
        let cs2 := cs.dropWhile jsWsJson
        match cs2 with
        | d :: ds =>
          if d == braceClose then some (Json.obj [], ds)
          else
            (parseMembers fuel cs2).map fun pr => (Json.obj pr.1, pr.2)
        | [] => none
      else if c == '[' then
        let cs2 := cs.dropWhile jsWsJson
        match cs2 with
        | d :: ds =>
          if d == ']' then some (Json.arr [], ds)
          else
            (parseElems fuel cs2).map fun pr => (Json.arr pr.1, pr.2)
        | [] => none
      else if listStartsWith "true".data s then some (Json.bool true, s.drop 4)
      else if listStartsWith "false".data s then some (Json.bool false, s.drop 5)
      else if listStartsWith "null".data s then some (Json.null, s.drop 4)
      else
        (parseNumber s).map fun pr => (Json.num (String.mk pr.1), pr.2)

/-- Parse one or more comma-separated array elements then the closing
bracket. -/
def parseElems : Nat → List Char → Option (List Json × List Char)
  | 0, _ => none
  | Nat.succ fuel, l =>
    match parseValue fuel l with
    | none => none
    | some (v, rest) =>
      let r2 := rest.dropWhile jsWsJson
      match r2 with
      | c :: cs =>
        if c == ',' then
          (parseElems fuel cs).map fun pr => (v :: pr.1, pr.2)
        else if c == ']' then some ([v], cs)
        else none
      | [] => none

/-- Parse one or more `"key": value` members then the closing brace. -/
def parseMembers : Nat → List Char → Option (List (String × Json) × List Char)
  | 0, _ => none
  | Nat.succ fuel, l =>
    let s := l.dropWhile jsWsJson
    match s with
    | c :: cs =>
      if c == '"' then
        match parseStringBody cs with
        | some (key, r1) =>
          let r2 := r1.dropWhile jsWsJson
          match r2 with
          | d :: ds =>
            if d == ':' then
              match parseValue fuel ds with
              | some (v, r3) =>
                let r4 := r3.dropWhile jsWsJson
                match r4 with
                | e :: es =>
                  if e == ',' then
                    (parseMembers fuel es).map fun pr =>
                      ((String.mk key, v) :: pr.1, pr.2)
                  else if e == braceClose then some ([(String.mk key, v)], es)
                  else none
                | [] => none
              | none => none
            else none
          | [] => none
        | none => none
      else none
    | [] => none

end

/-- Model of `JSON.parse` on character lists: parse one value, then require only
whitespace to remain. -/
def jsonParse (l : List Char) : Option Json :=
  match parseValue (2 * l.length + 4) l with
  | some (v, rest) => if (rest.dropWhile jsWsJson).isEmpty then some v else none
  | none => none

/-- Model of `JSON.parse` on strings. -/
def jsonParseStr (s : String) : Option Json :=
  jsonParse s.data

/-- JS property access `o[k]` for JSON data: only objects have fields, and a
duplicate key keeps the last occurrence (later assignment wins). -/
def Json.getField : Json → String → Option Json
  | Json.obj fields, k => (fields.reverse.find? (fun p => p.1 == k)).map (·.2)
  | _, _ => none

/-- The mantissa of the number lexeme is all zeroes. -/
def numLexIsZero (l : String) : Bool :=
  (l.data.takeWhile (fun c => !(c == 'e' || c == 'E'))).all
    (fun c => !(c.isDigit && c != '0'))

/-- Is the value JSON `null`? -/
def isNullJson : Json → Bool
  | Json.null => true
  | _ => false

/-- JS truthiness of a JSON value (`undefined` is represented by `none` at
use sites). -/
def jsTruthy : Json → Bool
  | Json.null => false
  | Json.bool b => b
  | Json.num l => !(numLexIsZero l)
  | Json.str s => !s.isEmpty
  | Json.arr _ => true
  | Json.obj _ => true

mutual

/-- JS string coercion `String(v)` of a JSON value.  Numbers keep their
lexeme (JS canonicalizes the numeral; no number is coerced on any path the
claims touch); inside arrays JS renders `null` as the empty string. -/
def jsToString : Json → String
  | Json.null => "null"
  | Json.bool true => "true"
  | Json.bool false => "false"
  | Json.num l => l
  | Json.str s => s
  | Json.arr es => String.intercalate "," (jsToStringElems es)
  | Json.obj _ => "[object Object]"

/-- Coerce each array element for `Array.prototype.toString`. -/
def jsToStringElems : List Json → List String
  | [] => []
  | e :: es => (if isNullJson e then "" else jsToString e) :: jsToStringElems es

end

/-- JS `String(o[k])`, with `undefined` for a missing field. -/
def fieldAsString (j : Json) (k : String) : String :=
  match j.getField k with
  | some v => jsToString v
  | none => "undefined"

/-- Read a field that is a JSON string; `none` otherwise. -/
def getStr (j : Json) (k : String) : Option String :=
  match j.getField k with
  | some (Json.str s) => some s
  | _ => none

/-- Lower-case hex digit. -/
def hexDigit (n : Nat) : Char :=
  if n < 10 then Char.ofNat (48 + n) else Char.ofNat (87 + n)

/-- JSON string escaping used by `JSON.stringify`. -/
def escapeJsonChar (c : Char) : List Char :=
  if c == '"' then ['\\', '"']
  else if c == '\\' then ['\\', '\\']
  else if c == '\n' then ['\\', 'n']
  else if c == '\r' then ['\\', 'r']
  else if c == '\t' then ['\\', 't']
  else if c == Char.ofNat 8 then ['\\', 'b']
  else if c == Char.ofNat 12 then ['\\', 'f']
  else if c.toNat < 32 then
    ['\\', 'u', '0', '0', hexDigit (c.toNat / 16), hexDigit (c.toNat % 16)]
  else [c]

/-- Quote and escape a string for JSON output. -/
def quoteJson (s : String) : String :=
  String.mk ('"' :: (s.data.map escapeJsonChar).flatten ++ ['"'])

/-- A run of `n` spaces. -/
def padSpaces (n : Nat) : String :=
  String.mk (List.replicate n ' ')

mutual

/-- Model of `JSON.stringify(v, null, 2)` at current indent `ind`, as used by the
session reducer to render tool arguments. -/
def jsonStringify : Nat → Json → String
  | _, Json.null => "null"
  | _, Json.bool true => "true"
  | _, Json.bool false => "false"
  | _, Json.num l => l
  | _, Json.str s => quoteJson s
  | _, Json.arr [] => "[]"
  | ind, Json.arr (e :: es) =>
    "[\n" ++
      String.intercalate ",\n" (jsonStringifyElems (ind + 2) (e :: es)) ++
      "\n" ++ padSpaces ind ++ "]"
  | _, Json.obj [] => "\x7b\x7d"
  | ind, Json.obj (f :: fs) =>
    "\x7b\n" ++
      String.intercalate ",\n" (jsonStringifyFields (ind + 2) (f :: fs)) ++
      "\n" ++ padSpaces ind ++ "\x7d"

/-- Render each array element at the given indent. -/
def jsonStringifyElems : Nat → List Json → List String
  | _, [] => []
  | ind, e :: es => (padSpaces ind ++ jsonStringify ind e) :: jsonStringifyElems ind es

/-- Render each object member at the given indent. -/
def jsonStringifyFields : Nat → List (String × Json) → List String
  | _, [] => []
  | ind, (k, v) :: fs =>
    (padSpaces ind ++ quoteJson k ++ ": " ++ jsonStringify ind v) ::
      jsonStringifyFields ind fs

end

structure ToolCallTrack where
  name : Option String := none
  arguments : Option String := none
  parsedArguments : Option Json := none
  callId : Option String := none

structure ClientState where
  messageBuffer : String := ""
  currentAgent : String := ""
  isComplete : Bool := false
  eventCount : Nat := 0
  currentToolCall : ToolCallTrack := {}
  idCounter : Nat := 0

/-- One callback invocation on the client's collaborators. -/
inductive Callback where
  | textDelta (delta fullText : String)
  | textComplete (text : String)
  | reasoningDelta (delta : String)
  | refusalDelta (delta : String)
  | responseStart
  | responseComplete
  | messageCreated (messageId role : String)
  | toolCalled (toolName : String) (args : Json) (callId : String)
  | toolOutput (toolName output callId : String)
  | handoffRequested (target reason : String)
  | handoffComplete (target previous : String)
  | reasoningCreated (content : String)
  | mcpApproval (tool server : String)
  | mcpTools (server : String) (tools : Option Json)
  | agentChanged (agentName instructions : String)
  | streamComplete (finalOutput usage : Option Json)
  | errorNote (message : String)

/-- Truthiness of a possibly-undefined JS string. -/
def optStrTruthy : Option String → Bool
  | some s => !s.isEmpty
  | none => false

/-- JS `v || fallback` where `v` is a possibly-undefined event field used as
a string. -/
def jsOrStr (v : Option Json) (fb : String) : String :=
  match v with
  | some j => if jsTruthy j then jsToString j else fb
  | none => fb

/-- JS `s || fallback` for a tracked string field. -/
def jsOrTracked (o : Option String) (fb : String) : String :=
  match o with
  | some s => if !s.isEmpty then s else fb
  | none => fb

/-- The `generateCallId` helper of `client.ts`. -/
def generateCallId (st : ClientState) : String :=
  "call_" ++ toString st.idCounter

/-- Bump the freshness counter after a `generateCallId` call. -/
def bumpId (st : ClientState) : ClientState :=
  { st with idCounter := st.idCounter + 1 }

/-- The `extractToolNameFromArguments` helper of `client.ts`: infer a tool name from
the parsed argument field names. -/
def extractToolNameFromArguments (tc : ToolCallTrack) : String :=
  match tc.parsedArguments with
  | some args =>
    if jsTruthy args then
      let field := fun (k : String) =>
        match args.getField k with
        | some v => jsTruthy v
        | none => false
      if field "city" || field "location" then "get_weather"
      else if field "query" || field "search" then "search_tool"
      else if field "url" || field "endpoint" then "web_request"
      else if field "code" || field "language" then "code_executor"
      else "unknown_tool"
    else "unknown_tool"
  | none => "unknown_tool"

/-- Resolve `event.call_id || this.currentToolCall.callId ||
this.generateCallId()`, bumping the counter only when a fresh id is
generated. -/
def resolveCallId (st : ClientState) (evField : Option Json) (tracked : Option String) :
    String × ClientState :=
  let fromTracked : String × ClientState :=
    match tracked with
    | some c => if !c.isEmpty then (c, st) else (generateCallId st, bumpId st)
    | none => (generateCallId st, bumpId st)
  match evField with
  | some j => if jsTruthy j then (jsToString j, st) else fromTracked
  | none => fromTracked

/-- The `handleRawResponse` handler of `client.ts`. -/
def handleRawResponse (st : ClientState) (event : Json) : ClientState × List Callback :=
  match getStr event "event_type" with
  | some "response.output_text.delta" =>
    let delta := fieldAsString event "delta"
    let buf := st.messageBuffer ++ delta
    ({ st with messageBuffer := buf }, [Callback.textDelta delta buf])
  | some "response.output_text.done" =>
    let text := fieldAsString event "text"
    ({ st with messageBuffer := text }, [Callback.textComplete text])
  | some "response.reasoning_summary_text.delta" =>
    (st, [Callback.reasoningDelta (fieldAsString event "delta")])
  | some "response.refusal.delta" =>
    (st, [Callback.refusalDelta (fieldAsString event "delta")])
  | some "response.created" =>
    ({ st with messageBuffer := "" }, [Callback.responseStart])
  | some "response.completed" =>
    (st, [Callback.responseComplete])
  | some "response.function_call_arguments.delta" =>
    let args0 := st.currentToolCall.arguments.getD ""
    let tc := { st.currentToolCall with
      arguments := some (args0 ++ fieldAsString event "delta"),
      callId := getStr event "call_id" }
    ({ st with currentToolCall := tc }, [])
  | some "response.function_call_arguments.done" =>
    match st.currentToolCall.arguments with
    | some a =>
      if a.isEmpty then (st, [])
      else
        match jsonParseStr a with
        | some parsed =>
          let tc1 := { st.currentToolCall with parsedArguments := some parsed }
          let toolName := extractToolNameFromArguments tc1
          let callId := generateCallId st
          ({ bumpId st with
              currentToolCall := { tc1 with name := some toolName, callId := some callId } },
            [Callback.toolCalled toolName
              (if jsTruthy parsed then parsed else Json.obj []) callId])
        | none =>
          ({ st with currentToolCall :=
              { st.currentToolCall with parsedArguments := some (Json.obj []) } }, [])
    | none => (st, [])
  | some "response.output_item.added" =>
    if getStr event "item_type" == some "function_call" then
      ({ st with currentToolCall := {} }, [])
    else (st, [])
  | _ => (st, [])

/-- The `handleRunItem` handler of `client.ts`. -/
def handleRunItem (st : ClientState) (event : Json) : ClientState × List Callback :=
  match getStr event "name" with
  | some "message_output_created" =>
    (st, [Callback.messageCreated (fieldAsString event "message_id")
      (fieldAsString event "role")])
  | some "tool_called" =>
    let tc := st.currentToolCall
    if optStrTruthy tc.name && optStrTruthy tc.callId then
      (st, [])
    else
      let toolName := jsOrStr (event.getField "tool_name") (extractToolNameFromArguments tc)
      let toolArgs :=
        match event.getField "tool_arguments" with
        | some v =>
          if jsTruthy v then v
          else
            match tc.parsedArguments with
            | some p => if jsTruthy p then p else Json.obj []
            | none => Json.obj []
        | none =>
          match tc.parsedArguments with
          | some p => if jsTruthy p then p else Json.obj []
          | none => Json.obj []
      let res := resolveCallId st (event.getField "call_id") tc.callId
      let callId := res.1
      ({ res.2 with currentToolCall :=
          { tc with callId := some callId, name := some toolName } },
        [Callback.toolCalled toolName toolArgs callId])
  | some "tool_output" =>
    let tc := st.currentToolCall
    let outputToolName := jsOrStr (event.getField "tool_name") (jsOrTracked tc.name "unknown_tool")
    let res := resolveCallId st (event.getField "call_id") tc.callId
    ({ res.2 with currentToolCall := {} },
      [Callback.toolOutput outputToolName (fieldAsString event "output") res.1])
  | some "handoff_requested" =>
    (st, [Callback.handoffRequested (fieldAsString event "target_agent")
      (fieldAsString event "reason")])
  | some "handoff_occured" =>
    (st, [Callback.handoffComplete (fieldAsString event "target_agent")
      (fieldAsString event "previous_agent")])
  | some "reasoning_item_created" =>
    (st, [Callback.reasoningCreated (fieldAsString event "reasoning_content")])
  | some "mcp_approval_requested" =>
    (st, [Callback.mcpApproval (fieldAsString event "tool_name")
      (fieldAsString event "server_name")])
  | some "mcp_list_tools" =>
    (st, [Callback.mcpTools (fieldAsString event "server_name") (event.getField "tools")])
  | _ => (st, [])

/-- The `handleError` handler of `client.ts`: map a server error event to a
user-friendly message. -/
def userFriendlyErrorMessage (m : String) : String :=
  if hasSub m.data "timeout".data then
    "Request timed out. The server might be busy. Please try again."
  else if hasSub m.data "rate limit".data then
    "Too many requests. Please wait a moment before trying again."
  else if hasSub m.data "authentication".data then
    "Authentication failed. Please refresh the page and try again."
  else if hasSub m.data "Backend service unavailable".data || hasSub m.data "port 8000".data then
    "Chat service is not available. Please ensure the backend server is running on port 8000."
  else m

/-- The `handleEvent` dispatcher of `client.ts`, on `event.type`. -/
def handleEvent (st : ClientState) (event : Json) : ClientState × List Callback :=
  match getStr event "type" with
  | some "raw_response" => handleRawResponse st event
  | some "run_item" => handleRunItem st event
  | some "agent_updated" =>
    let nm := fieldAsString event "agent_name"
    ({ st with currentAgent := nm },
      [Callback.agentChanged nm (fieldAsString event "agent_instructions")])
  | some "stream_complete" =>
    ({ st with isComplete := true },
      [Callback.streamComplete (event.getField "final_output") (event.getField "usage")])
  | some "error" =>
    (st, [Callback.errorNote (userFriendlyErrorMessage (fieldAsString event "message"))])
  | _ => (st, [])

/-- Run the event normalizer over a list of already-parsed events. -/
def runEvents : ClientState → List Json → ClientState × List Callback
  | st, [] => (st, [])
  | st, e :: es =>
    let r1 := handleEvent st e
    let r2 := runEvents r1.1 es
    (r2.1, r1.2 ++ r2.2)

/-- The event normalizer on raw frame payloads: `JSON.parse` each payload;
on parse failure the frame is dropped (logged) and processing continues. -/
def processPayloads : ClientState → List (List Char) → ClientState × List Callback
  | st, [] => (st, [])
  | st, p :: ps =>
    match jsonParse p with
    | some ev =>
      let r1 := handleEvent { st with eventCount := st.eventCount + 1 } ev
      let r2 := processPayloads r1.1 ps
      (r2.1, r1.2 ++ r2.2)
    | none => processPayloads st ps

/-- Fresh client state (a new `AgentStreamClient`). -/
def clientInit : ClientState := {}

/-- Full pipeline: decode SSE chunks into frame payloads, then normalize
them into callback invocations. -/
def clientProcessChunks (chunks : List (List Char)) : ClientState × List Callback :=
  processPayloads clientInit (decodePayloads chunks)

/-- Errors never retried because the backend is unreachable. -/
def noRetryBackend (m : String) : Bool :=
  hasSub m.data "Backend service unavailable".data ||
  hasSub m.data "port 8000".data ||
  hasSub m.data "503".data

/-- Errors never retried because the request failed client-side validation. -/
def noRetryValidation (m : String) : Bool :=
  hasSub m.data "Request validation error".data

/-- The `handleStreamError` retry handler of `client.ts`. -/
def handleStreamError (maxRetries retryDelay : Nat) :
    Nat → String → List String → List String × List Nat
  | retryCount, msg, future =>
    if retryCount < maxRetries then
      if noRetryBackend msg then
        (["Backend service is unavailable. Please ensure the chat service is running on port 8000."],
          [])
      else if noRetryValidation msg then
        ([msg], [])
      else
        let rc := retryCount + 1
        let note := "Connection failed, retrying... (" ++ toString rc ++ "/" ++
          toString maxRetries ++ ")"
        let delay := retryDelay * rc
        match future with
        | [] => ([note], [delay])
        | e :: rest =>
          let r := handleStreamError maxRetries retryDelay rc e rest
          (note :: r.1, delay :: r.2)
    else
      (["Stream failed after maximum retries: " ++ msg], [])

/-- One element of a message's content array: a proper content item, or a
bare JS string (which arises when a string content is array-spread). -/
inductive ContentEntry where
  | item (kind : String) (text : Option String)
  | rawStr (s : String)

/-- The `MessageItem.content` payload: either a plain string (legacy/database form) or
an array of content items. -/
inductive MsgContent where
  | str (s : String)
  | parts (entries : List ContentEntry)

/-- The `ToolCallItem` record of `types.ts` (the `type` tag is the constructor). -/
structure ToolCall where
  tool_type : String
  status : String
  id : String
  name : Option String := none
  call_id : Option String := none
  arguments : Option String := none
  parsedArguments : Option Json := none
  output : Option String := none

/-- Conversation items the modelled code constructs. -/
inductive Item where
  | message (role : String) (id : Option String) (status : Option String) (content : MsgContent)
  | toolCall (tc : ToolCall)
  | agentHandoff (id : String) (handoff_type : String) (target : String)
      (previous : Option String)

/-- Modelled from the spec: `generateId` from `lib/utils` is absent from the
provided sources; the reducer uses it only as an id fallback when the
callback's call id is empty, which the client never produces. -/
def generateId : String := "generated_id"

/-- The content array of a message, spreading a string content into its
characters as JS `[...content]` does. -/
def contentEntries : MsgContent → List ContentEntry
  | MsgContent.str s => s.data.map (fun c => ContentEntry.rawStr (String.mk [c]))
  | MsgContent.parts es => es

/-- Does a content entry have the given `type`? (`c.type === kind`; a bare
string element has no `type`.) -/
def entryHasKind (kind : String) : ContentEntry → Bool
  | ContentEntry.item k _ => k == kind
  | ContentEntry.rawStr _ => false

/-- The `updateTextContent` handler of the hook: overwrite (or add) the `output_text`
content part of the trailing assistant message with `fullText`. -/
def updateTextContent (fullText : String) (items : List Item) : List Item :=
  match items.getLast? with
  | some (Item.message role id status content) =>
    if role == "assistant" then
      let entries := contentEntries content
      let entries' :=
        match entries.findIdx? (entryHasKind "output_text") with
        | some i => entries.set i (ContentEntry.item "output_text" (some fullText))
        | none => entries ++ [ContentEntry.item "output_text" (some fullText)]
      items.dropLast ++ [Item.message role id status (MsgContent.parts entries')]
    else items
  | _ => items

/-- The reasoning/refusal delta handlers of the hook: append `delta` to the
content part of the given kind of the trailing assistant message, adding the
part if absent. -/
def appendDeltaContent (kind delta : String) (items : List Item) : List Item :=
  match items.getLast? with
  | some (Item.message role id status content) =>
    if role == "assistant" then
      let entries := contentEntries content
      let entries' :=
        match entries.findIdx? (entryHasKind kind) with
        | some i =>
          match entries.get? i with
          | some (ContentEntry.item k t) =>
            entries.set i (ContentEntry.item k (some (t.getD "" ++ delta)))
          | _ => entries
        | none => entries ++ [ContentEntry.item kind (some delta)]
      items.dropLast ++ [Item.message role id status (MsgContent.parts entries')]
    else items
  | _ => items

/-- The match predicate of the hook's `onToolOutput` handler. -/
def toolOutputMatches (toolName callId : String) : Item → Bool
  | Item.toolCall tc =>
    tc.call_id == some callId || (tc.name == some toolName && tc.status == "in_progress")
  | _ => false

/-- Set the output and mark completed (`{ ...item, output, status:
'completed' }`, also the mutation of `transformDatabaseMessagesToItems`). -/
def completeToolCall (output : String) : Item → Item
  | Item.toolCall tc => Item.toolCall { tc with output := some output, status := "completed" }
  | it => it

/-- The `onToolOutput` handler of the hook. -/
def onToolOutput (toolName output callId : String) (items : List Item) : List Item :=
  items.map fun it =>
    if toolOutputMatches toolName callId it then completeToolCall output it else it

/-- The `ToolCallItem` the hook's `onToolCalled` handler appends. -/
def onToolCalledItem (toolName : String) (args : Json) (callId : String) : Item :=
  Item.toolCall {
    tool_type := toolName
    status := "in_progress"
    id := if !callId.isEmpty then callId else generateId
    name := some toolName
    call_id := some callId
    arguments := some (jsonStringify 0 args)
    parsedArguments := some args
    output := none }

/-- The fresh assistant message appended by the hook's `onResponseStart`. -/
def responseStartItem : Item :=
  Item.message "assistant" none none
    (MsgContent.parts [ContentEntry.item "output_text" (some "")])

/-- The hook's memoized `currentAgent`. -/
def currentAgentOf (items : List Item) : String :=
  match (items.filterMap (fun it =>
    match it with
    | Item.agentHandoff _ _ t _ => some t
    | _ => none)).getLast? with
  | some t => t
  | none => "chat_agent"

/-- Apply one client callback to the hook's item list; callbacks the hook
does not subscribe to leave the items unchanged. -/
def applyCallback (items : List Item) : Callback → List Item
  | Callback.textDelta _ fullText => updateTextContent fullText items
  | Callback.textComplete text => updateTextContent text items
  | Callback.reasoningDelta delta => appendDeltaContent "reasoning" delta items
  | Callback.refusalDelta delta => appendDeltaContent "refusal" delta items
  | Callback.responseStart => items ++ [responseStartItem]
  | Callback.toolCalled n a c => items ++ [onToolCalledItem n a c]
  | Callback.toolOutput n o c => onToolOutput n o c items
  | Callback.agentChanged nm _ =>
    let cur := currentAgentOf items
    if !cur.isEmpty && cur != nm then
      items ++ [Item.agentHandoff generateId "completed" nm (some cur)]
    else items
  | Callback.streamComplete finalOutput _ =>
    updateTextContent (match finalOutput with | some j => jsToString j | none => "undefined")
      items
  | _ => items

/-- Fold the client's callback invocations into the item list. -/
def runCallbacks (items : List Item) (cbs : List Callback) : List Item :=
  cbs.foldl applyCallback items

/-- A `function_call` database record (`Omit<ToolCallItem,'type'>` with the
fields the transformer reads treated as runtime-optional). -/
structure DbToolCall where
  tool_type : String
  status : Option String := none
  id : String
  name : Option String := none
  call_id : Option String := none
  arguments : Option String := none
  parsedArguments : Option Json := none
  output : Option String := none

/-- A persisted record (`DatabaseMessage` of `types.ts`); `legacy` is a
record carrying `role`/`content` but no `type` tag. -/
inductive DbMessage where
  | message (role : String) (id : Option String) (status : Option String) (content : MsgContent)
  | functionCall (fc : DbToolCall)
  | functionCallOutput (call_id : String) (output : String)
  | legacy (role : String) (content : MsgContent)

/-- The transformer's fold state: produced items plus the `toolCalls` map
from call id to the position of the (shared, mutable in JS) tool item. -/
structure TState where
  items : List Item := []
  toolCalls : List (Option String × Nat) := []

/-- JS `Map.get`: most recent `set` for the key wins. -/
def mapLookup (k : Option String) (m : List (Option String × Nat)) : Option Nat :=
  (m.find? (fun p => p.1 == k)).map (·.2)

/-- Computes `funcCall.parsedArguments || (funcCall.arguments ?
JSON.parse(funcCall.arguments) : {})`; `none` means `JSON.parse` threw. -/
def fcParsedArguments (fc : DbToolCall) : Option Json :=
  let fallback : Option Json :=
    match fc.arguments with
    | some a => if !a.isEmpty then jsonParseStr a else some (Json.obj [])
    | none => some (Json.obj [])
  match fc.parsedArguments with
  | some p => if jsTruthy p then some p else fallback
  | none => fallback

/-- One iteration of the transformer's loop; `none` propagates a
`JSON.parse` exception. -/
def dbStep (s : TState) : DbMessage → Option TState
  | DbMessage.functionCallOutput cid out =>
    match mapLookup (some cid) s.toolCalls with
    | some idx =>
      match s.items.get? idx with
      | some it => some { s with items := s.items.set idx (completeToolCall out it) }
      | none => some s
    | none => some s
  | DbMessage.functionCall fc =>
    match fcParsedArguments fc with
    | none => none
    | some pj =>
      let toolItem : ToolCall := {
        tool_type := jsOrTracked fc.name fc.tool_type
        status := jsOrTracked fc.status "completed"
        id := fc.id
        name := fc.name
        call_id := fc.call_id
        arguments := fc.arguments
        parsedArguments := some pj
        output := none }
      some { items := s.items ++ [Item.toolCall toolItem],
             toolCalls := (fc.call_id, s.items.length) :: s.toolCalls }
  | DbMessage.message role id status content =>
    some { s with items := s.items ++ [Item.message role id status content] }
  | DbMessage.legacy role content =>
    some { s with items := s.items ++ [Item.message role none none content] }

/-- Run the transformer loop from a given state. -/
def runDb (s : TState) : List DbMessage → Option TState
  | [] => some s
  | m :: ms =>
    match dbStep s m with
    | some s2 => runDb s2 ms
    | none => none

/-- The `transformDatabaseMessagesToItems` function of `types.ts`. -/
def transformDatabaseMessagesToItems (msgs : List DbMessage) : Option (List Item) :=
  (runDb {} msgs).map TState.items

/-- A `response.created` raw-response event. -/
def responseCreatedEvent : Json :=
  Json.obj [("type", Json.str "raw_response"), ("event_type", Json.str "response.created")]

/-- A text-delta raw-response event. -/
def textDeltaEvent (d : String) : Json :=
  Json.obj [("type", Json.str "raw_response"),
    ("event_type", Json.str "response.output_text.delta"), ("delta", Json.str d)]

/-- A text-done raw-response event carrying the authoritative final text. -/
def textDoneEvent (t : String) : Json :=
  Json.obj [("type", Json.str "raw_response"),
    ("event_type", Json.str "response.output_text.done"), ("text", Json.str t)]

/-- A function-call-arguments delta event without an explicit call id. -/
def argsDeltaEvent (d : String) : Json :=
  Json.obj [("type", Json.str "raw_response"),
    ("event_type", Json.str "response.function_call_arguments.delta"),
    ("delta", Json.str d)]

/-- A function-call-arguments delta event carrying an explicit call id. -/
def argsDeltaWithIdEvent (d cid : String) : Json :=
  Json.obj [("type", Json.str "raw_response"),
    ("event_type", Json.str "response.function_call_arguments.delta"),
    ("delta", Json.str d), ("call_id", Json.str cid)]

/-- A function-call-arguments done event. -/
def argsDoneEvent : Json :=
  Json.obj [("type", Json.str "raw_response"),
    ("event_type", Json.str "response.function_call_arguments.done")]

/-- The corroborating `tool_called` run-item event as the backend emits it
for a call already streamed via raw deltas: its payload fields are null. -/
def toolCalledBareEvent : Json :=
  Json.obj [("type", Json.str "run_item"), ("name", Json.str "tool_called"),
    ("item_type", Json.null), ("tool_name", Json.null),
    ("tool_arguments", Json.null), ("call_id", Json.null)]

/-- An assistant message whose content is a single `output_text` part. -/
def asstMsg (t : String) : Item :=
  Item.message "assistant" none none
    (MsgContent.parts [ContentEntry.item "output_text" (some t)])

/-- Tool name inferred from parsed arguments alone. -/
def inferToolName (j : Json) : String :=
  extractToolNameFromArguments { parsedArguments := some j }

/-- A one-field-varying completed tool_call item used in the C5
counterexample. -/
def c5CompletedItem (out : String) : Item :=
  Item.toolCall
    { tool_type := "t", status := "completed", id := "1", name := some "t",
      call_id := some "c", output := some out }

/-- The two-item list of the C5 witness: an in-progress tool call matched by
call id next to an unrelated message. -/
def c5WitnessItems : List Item :=
  [Item.toolCall
    { tool_type := "t", status := "in_progress", id := "1", name := some "t",
      call_id := some "c" },
   Item.message "user" none none (MsgContent.str "hi")]

/-- Concatenation of a list of strings (the `+=` accumulation of argument
deltas). -/
def concatAll : List String → String
  | [] => ""
  | s :: ss => s ++ concatAll ss

/-- The state of the C8 witness: an explicit call id is already tracked. -/
def c8State : ClientState :=
  { clientInit with currentToolCall :=
      { arguments := some "\x7b\x7d", callId := some "call_xyz" } }

/-- A record that is a `function_call` declaring the given call id. -/
def declaresCallId (cid : String) : DbMessage → Bool
  | DbMessage.functionCall fc => fc.call_id == some cid
  | _ => false

/-- The `function_call` record of the C9 witness. -/
def c9Fc : DbToolCall :=
  { tool_type := "get_weather", id := "t1", name := some "get_weather",
    call_id := some "c1", arguments := some "\x7b\x7d" }

/-! ## Theorems -/

theorem splitNl_cons (c : Char) (cs : List Char) :
    splitNl (c :: cs) = if c = '\n' then [] :: splitNl cs else consHead c (splitNl cs) := by
  by_cases h : c = '\n'
  · simp [splitNl, h]
  · rw [if_neg h]
    simp only [splitNl]
    rw [if_neg (show ¬((c == '\n') = true) by simpa using h)]
    cases hs : splitNl cs <;> simp [consHead]

theorem splitNl_ne_nil (l : List Char) : splitNl l ≠ [] := by
  induction l with
  | nil => simp [splitNl]
  | cons c cs ih =>
    rw [splitNl_cons]
    split
    · simp
    · cases h : splitNl cs <;> simp [consHead]

theorem mem_splitNl_no_nl (l : List Char) :
    ∀ p ∈ splitNl l, '\n' ∉ p := by
  induction l with
  | nil =>
    intro p hp
    simp [splitNl] at hp
    simp [hp]
  | cons c cs ih =>
    intro p hp
    rw [splitNl_cons] at hp
    split at hp
    · rcases List.mem_cons.mp hp with h | h
      · simp [h]
      · exact ih p h
    · rename_i hc
      cases h : splitNl cs with
      | nil => exact absurd h (splitNl_ne_nil cs)
      | cons a as =>
        rw [h] at hp
        simp only [consHead] at hp
        rcases List.mem_cons.mp hp with h1 | h1
        · subst h1
          intro hmem
          rcases List.mem_cons.mp hmem with h2 | h2
          · exact hc h2.symm
          · exact ih a (h ▸ List.mem_cons_self a as) h2
        · exact ih p (h ▸ List.mem_cons.mpr (Or.inr h1))

theorem lastD_mem (ls : List (List Char)) (h : ls ≠ []) : lastD ls ∈ ls := by
  induction ls with
  | nil => exact absurd rfl h
  | cons a as ih =>
    cases as with
    | nil => simp [lastD]
    | cons b bs =>
      simp only [lastD]
      exact List.mem_cons.mpr (Or.inr (ih (by simp)))

/-- Splitting text with no newline glues it onto the first line of the rest. -/
theorem splitNl_no_nl_append (x b : List Char) (l : List Char) (ls : List (List Char))
    (hx : '\n' ∉ x) (hb : splitNl b = l :: ls) :
    splitNl (x ++ b) = (x ++ l) :: ls := by
  induction x with
  | nil => simpa using hb
  | cons c cs ih =>
    have hc : c ≠ '\n' := fun h => hx (by simp [h])
    have hcs : '\n' ∉ cs := fun h => hx (List.mem_cons.mpr (Or.inr h))
    rw [List.cons_append, splitNl_cons, if_neg hc, ih hcs]
    simp [consHead]

theorem splitNl_no_nl (x : List Char) (hx : '\n' ∉ x) : splitNl x = [x] := by
  have := splitNl_no_nl_append x [] [] [] hx (by simp [splitNl])
  simpa using this

/-- Key decomposition: splitting `a ++ b` equals the complete lines of `a`
followed by the split of (last line of `a`) ++ `b`. -/
theorem splitNl_append (a b : List Char) :
    splitNl (a ++ b) = (splitNl a).dropLast ++ splitNl (lastD (splitNl a) ++ b) := by
  induction a with
  | nil => simp [splitNl, lastD]
  | cons c cs ih =>
    by_cases hc : c = '\n'
    · subst hc
      rw [List.cons_append, splitNl_cons, splitNl_cons, if_pos rfl, if_pos rfl, ih]
      cases h : splitNl cs with
      | nil => exact absurd h (splitNl_ne_nil cs)
      | cons l ls =>
        rw [show (([] :: l :: ls : List (List Char)).dropLast) = [] :: (l :: ls).dropLast from rfl,
          show lastD ([] :: l :: ls) = lastD (l :: ls) from rfl]
        simp
    · rw [List.cons_append, splitNl_cons, splitNl_cons, if_neg hc, if_neg hc, ih]
      cases h : splitNl cs with
      | nil => exact absurd h (splitNl_ne_nil cs)
      | cons l ls =>
        cases ls with
        | nil =>
          simp only [consHead, List.dropLast_single, List.nil_append, lastD]
          rw [show ((c :: l : List Char) ++ b) = c :: (l ++ b) from rfl, splitNl_cons, if_neg hc]
          cases h2 : splitNl (l ++ b) <;> simp [consHead]
        | cons m ms =>
          simp only [consHead, lastD]
          rw [show ((c :: l) :: m :: ms : List (List Char)).dropLast
                = (c :: l) :: (m :: ms).dropLast from rfl,
              show ((l :: m :: ms : List (List Char)).dropLast)
                = l :: (m :: ms).dropLast from rfl]
          simp

theorem lastD_append (X Y : List (List Char)) (h : Y ≠ []) :
    lastD (X ++ Y) = lastD Y := by
  induction X with
  | nil => simp
  | cons a X ih =>
    have hne : X ++ Y ≠ [] := by
      intro habs
      exact h (List.append_eq_nil.mp habs).2
    cases hxy : X ++ Y with
    | nil => exact absurd hxy hne
    | cons b bs =>
      rw [List.cons_append, hxy]
      simp only [lastD]
      rw [← hxy, ih]

theorem dropLast_append_ne_nil (X Y : List (List Char)) (h : Y ≠ []) :
    (X ++ Y).dropLast = X ++ Y.dropLast := by
  induction X with
  | nil => simp
  | cons a X ih =>
    have hne : X ++ Y ≠ [] := by
      intro habs
      exact h (List.append_eq_nil.mp habs).2
    cases hxy : X ++ Y with
    | nil => exact absurd hxy hne
    | cons b bs =>
      rw [List.cons_append, hxy,
        show ((a :: b :: bs : List (List Char)).dropLast) = a :: (b :: bs).dropLast from rfl,
        ← hxy, ih]
      simp

/-- Characterization of the incremental decoder: feeding any chunk sequence
yields exactly the complete lines of the concatenated text, with the
trailing incomplete line left in the buffer. -/
theorem feedAll_eq (chunks : List (List Char)) :
    ∀ buffer : List Char, '\n' ∉ buffer →
      feedAll buffer chunks =
        ((splitNl (buffer ++ chunks.flatten)).dropLast,
          lastD (splitNl (buffer ++ chunks.flatten))) := by
  induction chunks with
  | nil =>
    intro buffer hb
    rw [show List.flatten ([] : List (List Char)) = [] from rfl]
    simp [feedAll, splitNl_no_nl buffer hb, lastD]
  | cons c cs ih =>
    intro buffer hb
    have hsplit := splitNl_append (buffer ++ c) (cs.flatten)
    have hb2 : '\n' ∉ lastD (splitNl (buffer ++ c)) :=
      mem_splitNl_no_nl (buffer ++ c) _
        (lastD_mem _ (splitNl_ne_nil (buffer ++ c)))
    have hjoin : buffer ++ (c :: cs).flatten = (buffer ++ c) ++ cs.flatten := by
      simp [List.flatten]
    simp only [feedAll, feedChunk, ih _ hb2, hjoin, hsplit]
    rw [dropLast_append_ne_nil _ _ (splitNl_ne_nil _),
      lastD_append _ _ (splitNl_ne_nil _)]

/-- C2: for every input text and every way of splitting it into chunks, the
frame decoder produces the same sequence of frame payloads as when the whole
text arrives in a single chunk; the last possibly-incomplete line of each
chunk is held back in the buffer and any non-empty remainder is flushed at
stream end. -/
theorem claim_C2_decoder_chunking_invariance (chunks : List (List Char)) :
    decodePayloads chunks = decodePayloads [chunks.flatten] := by
  unfold decodePayloads
  rw [feedAll_eq chunks [] (by simp), feedAll_eq [chunks.flatten] [] (by simp)]
  simp

/-- C1: a data frame whose payload fails `JSON.parse` is dropped and every
subsequent frame is still processed (the processing of the rest of the list
is literally unchanged, so the stream is never aborted); on the concrete
stream `data: {bad\n\ndata: {"type":"error","message":"x"}\n\n` exactly one
error notification, for message `x`, is emitted. -/
theorem claim_C1_malformed_frame_skipped :
    (∀ (st : ClientState) (p : List Char) (ps : List (List Char)),
        jsonParse p = none → processPayloads st (p :: ps) = processPayloads st ps) ∧
    (clientProcessChunks
        ["data: \x7bbad\n\ndata: \x7b\"type\":\"error\",\"message\":\"x\"\x7d\n\n".data]).2 =
      [Callback.errorNote "x"] := by
  constructor
  · intro st p ps h
    simp [processPayloads, h]
  · rfl

/-- Witness for C1 at a concrete malformed payload. -/
theorem claim_C1_malformed_frame_skipped_witness :
    processPayloads clientInit
        ["\x7bbad".data, "\x7b\"type\":\"error\",\"message\":\"x\"\x7d".data] =
      processPayloads clientInit ["\x7b\"type\":\"error\",\"message\":\"x\"\x7d".data] :=
  claim_C1_malformed_frame_skipped.1 clientInit "\x7bbad".data
    ["\x7b\"type\":\"error\",\"message\":\"x\"\x7d".data] (by rfl)

theorem streamFailedMsg_ne (t s : String)
    (h : listStartsWith "Connection".data s.data = true) :
    ("Stream failed after maximum retries: " ++ t) ≠ s := by
  intro he
  have h2 := congrArg String.data he
  rw [String.data_append] at h2
  rw [← h2] at h
  simp [listStartsWith] at h

/-- C6: three consecutive transient transport failures produce exactly 3
retries with linearly increasing delays (1000, 2000, 3000 ms for base delay
1000), one per-attempt notification before each retry, and then exactly one
terminal failure notification distinct from every per-attempt one; a
validation-error failure is surfaced immediately with zero retries (empty
delay list). -/
theorem claim_C6_retry_policy (e0 e1 e2 e3 v : String)
    (h0b : noRetryBackend e0 = false) (h0v : noRetryValidation e0 = false)
    (h1b : noRetryBackend e1 = false) (h1v : noRetryValidation e1 = false)
    (h2b : noRetryBackend e2 = false) (h2v : noRetryValidation e2 = false)
    (hv : noRetryValidation v = true) (hvb : noRetryBackend v = false) :
    handleStreamError 3 1000 0 e0 [e1, e2, e3] =
      (["Connection failed, retrying... (1/3)",
        "Connection failed, retrying... (2/3)",
        "Connection failed, retrying... (3/3)",
        "Stream failed after maximum retries: " ++ e3],
       [1000, 2000, 3000]) ∧
    (∀ s ∈ ["Connection failed, retrying... (1/3)",
        "Connection failed, retrying... (2/3)",
        "Connection failed, retrying... (3/3)"],
      ("Stream failed after maximum retries: " ++ e3) ≠ s) ∧
    handleStreamError 3 1000 0 v [] = ([v], []) := by
  refine ⟨?_, ?_, ?_⟩
  · simp only [handleStreamError, h0b, h1b, h2b, h0v, h1v, h2v]
    norm_num
    refine ⟨by decide, by decide, by decide⟩
  · intro s hs
    fin_cases hs <;> exact streamFailedMsg_ne e3 _ (by decide)
  · simp only [handleStreamError, hv, hvb]
    norm_num

/-- Witness for C6 at concrete transient and validation error messages. -/
theorem claim_C6_retry_policy_witness :
    handleStreamError 3 1000 0 "network error" ["network error", "network error", "boom"] =
      (["Connection failed, retrying... (1/3)",
        "Connection failed, retrying... (2/3)",
        "Connection failed, retrying... (3/3)",
        "Stream failed after maximum retries: " ++ "boom"],
       [1000, 2000, 3000]) ∧
    ("Stream failed after maximum retries: " ++ "boom") ≠
      "Connection failed, retrying... (3/3)" ∧
    handleStreamError 3 1000 0 "Request validation error: Message cannot be empty" [] =
      (["Request validation error: Message cannot be empty"], []) := by
  have h := claim_C6_retry_policy "network error" "network error" "network error" "boom"
    "Request validation error: Message cannot be empty"
    (by decide) (by decide) (by decide) (by decide) (by decide) (by decide)
    (by decide) (by decide)
  exact ⟨h.1, h.2.1 _ (by simp), h.2.2⟩

/-- C5 counterexample: the claim "a tool_call item that has already reached
completed or failed is never mutated afterwards" is false: a completed
tool_call item whose `call_id` matches the notification is mutated again
(its output is overwritten). -/
theorem claim_C5_counterexample :
    onToolOutput "t" "new" "c" [c5CompletedItem "old"] = [c5CompletedItem "new"] ∧
    [c5CompletedItem "new"] ≠ [c5CompletedItem "old"] := by
  refine ⟨rfl, ?_⟩
  intro h
  simp [c5CompletedItem, Item.toolCall.injEq, ToolCall.mk.injEq] at h

/-- C5 (amended): processing a tool-output notification maps each item
pointwise: every `tool_call` item whose `call_id` equals the notification's
call id, or whose name equals the tool name while its status is
`in_progress`, gets the output and status `completed`; every other item is
unchanged.  An already completed or failed item whose `call_id` matches is
mutated again. -/
theorem claim_C5_tool_output_pointwise (toolName output callId : String)
    (items : List Item) (i : Nat) (h : i < items.length) :
    (onToolOutput toolName output callId items).length = items.length ∧
    (onToolOutput toolName output callId items).get
        ⟨i, by simpa [onToolOutput] using h⟩ =
      (if toolOutputMatches toolName callId (items.get ⟨i, h⟩)
        then completeToolCall output (items.get ⟨i, h⟩)
        else items.get ⟨i, h⟩) := by
  constructor
  · simp [onToolOutput]
  · simp [onToolOutput]

/-- Witness for C5 (amended): a two-item list where only the first item
matches, by call id. -/
theorem claim_C5_tool_output_pointwise_witness :
    (onToolOutput "t" "out" "c" c5WitnessItems).length = c5WitnessItems.length ∧
    (onToolOutput "t" "out" "c" c5WitnessItems).get
        ⟨0, by simpa [onToolOutput] using (by decide : 0 < c5WitnessItems.length)⟩ =
      (if toolOutputMatches "t" "c" (c5WitnessItems.get ⟨0, by decide⟩)
        then completeToolCall "out" (c5WitnessItems.get ⟨0, by decide⟩)
        else c5WitnessItems.get ⟨0, by decide⟩) :=
  claim_C5_tool_output_pointwise "t" "out" "c" c5WitnessItems 0 (by decide)

theorem handleEvent_responseCreated (st : ClientState) :
    handleEvent st responseCreatedEvent =
      ({ st with messageBuffer := "" }, [Callback.responseStart]) := rfl

theorem handleEvent_textDelta (st : ClientState) (d : String) :
    handleEvent st (textDeltaEvent d) =
      ({ st with messageBuffer := st.messageBuffer ++ d },
        [Callback.textDelta d (st.messageBuffer ++ d)]) := rfl

theorem handleEvent_textDone (st : ClientState) (t : String) :
    handleEvent st (textDoneEvent t) =
      ({ st with messageBuffer := t }, [Callback.textComplete t]) := rfl

theorem handleEvent_argsDelta (st : ClientState) (d : String) :
    handleEvent st (argsDeltaEvent d) =
      ({ st with currentToolCall :=
          { st.currentToolCall with
            arguments := some (st.currentToolCall.arguments.getD "" ++ d),
            callId := none } }, []) := rfl

theorem handleEvent_argsDeltaWithId (st : ClientState) (d cid : String) :
    handleEvent st (argsDeltaWithIdEvent d cid) =
      ({ st with currentToolCall :=
          { st.currentToolCall with
            arguments := some (st.currentToolCall.arguments.getD "" ++ d),
            callId := some cid } }, []) := rfl

theorem handleEvent_argsDone (st : ClientState) :
    handleEvent st argsDoneEvent =
      (match st.currentToolCall.arguments with
        | some a =>
          if a.isEmpty then (st, [])
          else
            match jsonParseStr a with
            | some parsed =>
              ({ bumpId st with currentToolCall :=
                  { st.currentToolCall with
                    parsedArguments := some parsed,
                    name := some (extractToolNameFromArguments
                      { st.currentToolCall with parsedArguments := some parsed }),
                    callId := some (generateCallId st) } },
                [Callback.toolCalled
                  (extractToolNameFromArguments
                    { st.currentToolCall with parsedArguments := some parsed })
                  (if jsTruthy parsed then parsed else Json.obj [])
                  (generateCallId st)])
            | none =>
              ({ st with currentToolCall :=
                  { st.currentToolCall with parsedArguments := some (Json.obj []) } },
                [])
        | none => (st, [])) := rfl

theorem handleEvent_toolCalledBare (st : ClientState) :
    handleEvent st toolCalledBareEvent =
      (if optStrTruthy st.currentToolCall.name && optStrTruthy st.currentToolCall.callId
        then (st, [])
        else
          ({ (match st.currentToolCall.callId with
              | some c => if !c.isEmpty then (c, st) else (generateCallId st, bumpId st)
              | none => (generateCallId st, bumpId st)).2 with
              currentToolCall :=
              { st.currentToolCall with
                callId := some (match st.currentToolCall.callId with
                  | some c => if !c.isEmpty then (c, st) else (generateCallId st, bumpId st)
                  | none => (generateCallId st, bumpId st)).1,
                name := some (extractToolNameFromArguments st.currentToolCall) } },
            [Callback.toolCalled (extractToolNameFromArguments st.currentToolCall)
              (match st.currentToolCall.parsedArguments with
                | some p => if jsTruthy p then p else Json.obj []
                | none => Json.obj [])
              (match st.currentToolCall.callId with
                | some c => if !c.isEmpty then (c, st) else (generateCallId st, bumpId st)
                | none => (generateCallId st, bumpId st)).1])) := rfl

theorem runEvents_append (st : ClientState) (xs ys : List Json) :
    runEvents st (xs ++ ys) =
      ((runEvents (runEvents st xs).1 ys).1,
        (runEvents st xs).2 ++ (runEvents (runEvents st xs).1 ys).2) := by
  induction xs generalizing st with
  | nil => simp [runEvents]
  | cons x xs ih =>
    simp only [List.cons_append, runEvents, List.append_eq]
    rw [ih]
    simp

theorem extract_not_empty (tc : ToolCallTrack) :
    (extractToolNameFromArguments tc).isEmpty = false := by
  unfold extractToolNameFromArguments
  split
  · split
    · dsimp only
      split_ifs <;> rfl
    · rfl
  · rfl

theorem argsDeltas_run (ds : List String) :
    ∀ st : ClientState, ds ≠ [] →
      runEvents st (ds.map argsDeltaEvent) =
        ({ st with currentToolCall :=
            { st.currentToolCall with
              arguments := some (st.currentToolCall.arguments.getD "" ++ concatAll ds),
              callId := none } }, []) := by
  induction ds with
  | nil => intro st h; exact absurd rfl h
  | cons d ds ih =>
    intro st _
    simp only [List.map_cons, runEvents, handleEvent_argsDelta]
    cases ds with
    | nil =>
      simp [runEvents, concatAll, String.append_empty]
    | cons d2 ds2 =>
      rw [ih _ (by simp)]
      simp [concatAll, String.append_assoc]

theorem jsonParseStr_empty : jsonParseStr "" = none := rfl

theorem extract_only_parsed (tc : ToolCallTrack) :
    extractToolNameFromArguments tc =
      extractToolNameFromArguments { parsedArguments := tc.parsedArguments } := rfl

theorem generateCallId_not_empty (st : ClientState) :
    (generateCallId st).isEmpty = false := by
  unfold generateCallId
  cases h : ("call_" ++ toString st.idCounter).isEmpty
  · rfl
  · exfalso
    have h2 := congrArg String.data ((String.isEmpty_iff _).mp h)
    rw [String.data_append] at h2
    simp at h2

/-- After a parsed arguments-done, a bare corroborating `tool_called`
run-item event is suppressed as a duplicate: the two events together emit
exactly one tool-called notification. -/
theorem argsDone_then_bare (st : ClientState) (A : String) (j : Json)
    (hargs : st.currentToolCall.arguments = some A)
    (hA : A.isEmpty = false) (hp : jsonParseStr A = some j)
    (hj : jsTruthy j = true) :
    runEvents st [argsDoneEvent, toolCalledBareEvent] =
      ({ bumpId st with currentToolCall :=
          { st.currentToolCall with
            parsedArguments := some j,
            name := some (extractToolNameFromArguments
              { st.currentToolCall with parsedArguments := some j }),
            callId := some (generateCallId st) } },
        [Callback.toolCalled (inferToolName j) j (generateCallId st)]) := by
  simp only [runEvents, handleEvent_argsDone, hargs, hA, hp, handleEvent_toolCalledBare]
  simp only [Bool.false_eq_true, if_false, hj, if_true]
  simp only [optStrTruthy, extract_not_empty, generateCallId_not_empty, Bool.not_false,
    Bool.and_self, if_true]
  rw [extract_only_parsed]
  simp [inferToolName]

/-- C3: argument deltas whose concatenation parses as a JSON object,
followed by arguments-done and the later corroborating run-item event,
emit exactly one tool-called notification, with the parsed object as
arguments and the name inferred from its field names. -/
theorem claim_C3_early_tool_call_once (ds : List String) (fields : List (String × Json))
    (hds : ds ≠ [])
    (hp : jsonParseStr (concatAll ds) = some (Json.obj fields)) :
    (runEvents clientInit
        (ds.map argsDeltaEvent ++ [argsDoneEvent, toolCalledBareEvent])).2 =
      [Callback.toolCalled (inferToolName (Json.obj fields)) (Json.obj fields) "call_0"] := by
  have hne : (concatAll ds).isEmpty = false := by
    cases h : (concatAll ds).isEmpty
    · rfl
    · rw [(String.isEmpty_iff _).mp h, jsonParseStr_empty] at hp
      exact absurd hp (by simp)
  rw [runEvents_append, argsDeltas_run ds clientInit hds,
    argsDone_then_bare _ (concatAll ds) (Json.obj fields) rfl hne hp (by rfl)]
  simp only [generateCallId, clientInit]
  rfl

/-- Arguments-done on an unparseable non-empty buffer: fall back to an
empty parsed-arguments object, emit nothing. -/
theorem argsDone_failure (st : ClientState) (A : String)
    (hargs : st.currentToolCall.arguments = some A)
    (hA : A.isEmpty = false) (hbad : jsonParseStr A = none) :
    handleEvent st argsDoneEvent =
      ({ st with currentToolCall :=
          { st.currentToolCall with parsedArguments := some (Json.obj []) } }, []) := by
  rw [handleEvent_argsDone, hargs]
  simp [hA, hbad]

/-- A bare corroborating `tool_called` event with no early call recorded
falls back to tracked state: inferred name, tracked or generated id. -/
theorem toolCalledBare_fallback (st : ClientState)
    (hname : st.currentToolCall.name = none)
    (hcall : st.currentToolCall.callId = none)
    (hparsed : st.currentToolCall.parsedArguments = some (Json.obj [])) :
    handleEvent st toolCalledBareEvent =
      ({ bumpId st with currentToolCall :=
          { st.currentToolCall with
            callId := some (generateCallId st),
            name := some "unknown_tool" } },
        [Callback.toolCalled "unknown_tool" (Json.obj []) (generateCallId st)]) := by
  rw [handleEvent_toolCalledBare]
  rw [extract_only_parsed]
  simp [hname, hcall, hparsed, optStrTruthy, jsTruthy]
  rfl

/-- C7: when the accumulated function-call argument buffer is not valid
JSON, the arguments-done handler falls back to an empty parsed-arguments
object and emits nothing; the call still proceeds: the subsequent
`tool_called` run-item event emits exactly one tool-called notification
with empty parsed arguments. -/
theorem claim_C7_parse_failure_fallback (ds : List String) (hds : ds ≠ [])
    (hne : (concatAll ds).isEmpty = false)
    (hbad : jsonParseStr (concatAll ds) = none) :
    (runEvents clientInit
        (ds.map argsDeltaEvent ++ [argsDoneEvent])).1.currentToolCall.parsedArguments =
      some (Json.obj []) ∧
    (runEvents clientInit (ds.map argsDeltaEvent ++ [argsDoneEvent])).2 = [] ∧
    (runEvents clientInit
        (ds.map argsDeltaEvent ++ [argsDoneEvent, toolCalledBareEvent])).2 =
      [Callback.toolCalled "unknown_tool" (Json.obj []) "call_0"] := by
  refine ⟨?_, ?_, ?_⟩
  · rw [runEvents_append, argsDeltas_run ds clientInit hds]
    simp only [runEvents]
    rw [argsDone_failure _ (concatAll ds) rfl hne hbad]
  · rw [runEvents_append, argsDeltas_run ds clientInit hds]
    simp only [runEvents]
    rw [argsDone_failure _ (concatAll ds) rfl hne hbad]
    rfl
  · rw [runEvents_append, argsDeltas_run ds clientInit hds]
    simp only [runEvents]
    rw [argsDone_failure _ (concatAll ds) rfl hne hbad,
      toolCalledBare_fallback _ rfl rfl rfl]
    simp only [generateCallId, clientInit]
    rfl

/-- Witness for C7 at the concrete malformed buffer `{bad`. -/
theorem claim_C7_parse_failure_fallback_witness :
    (runEvents clientInit
        (["\x7bbad"].map argsDeltaEvent ++ [argsDoneEvent])).1.currentToolCall.parsedArguments =
      some (Json.obj []) ∧
    (runEvents clientInit (["\x7bbad"].map argsDeltaEvent ++ [argsDoneEvent])).2 = [] ∧
    (runEvents clientInit
        (["\x7bbad"].map argsDeltaEvent ++ [argsDoneEvent, toolCalledBareEvent])).2 =
      [Callback.toolCalled "unknown_tool" (Json.obj []) "call_0"] :=
  claim_C7_parse_failure_fallback ["\x7bbad"] (by simp) rfl rfl

/-- C8 counterexample: the argument deltas carry the explicit call id
`call_abc`, yet the call resolved at arguments-done gets the freshly
generated id (`call_0` in the counter model), not the explicit one. -/
theorem claim_C8_counterexample :
    (runEvents clientInit
        [argsDeltaWithIdEvent "\x7b\x7d" "call_abc", argsDoneEvent]).1.currentToolCall.callId =
      some "call_0" ∧
    (runEvents clientInit [argsDeltaWithIdEvent "\x7b\x7d" "call_abc", argsDoneEvent]).2 =
      [Callback.toolCalled "unknown_tool" (Json.obj []) "call_0"] ∧
    ("call_0" : String) ≠ "call_abc" := by
  refine ⟨rfl, rfl, by decide⟩

/-- C8 (amended): at arguments-done the resolved call id is always the
freshly generated one, whatever explicit id the deltas stored in
`currentToolCall.callId`. -/
theorem claim_C8_generated_id_wins (st : ClientState) (A : String) (j : Json)
    (hargs : st.currentToolCall.arguments = some A)
    (hA : A.isEmpty = false) (hp : jsonParseStr A = some j) :
    (handleEvent st argsDoneEvent).1.currentToolCall.callId = some (generateCallId st) ∧
    (handleEvent st argsDoneEvent).2 =
      [Callback.toolCalled
        (extractToolNameFromArguments { st.currentToolCall with parsedArguments := some j })
        (if jsTruthy j then j else Json.obj []) (generateCallId st)] := by
  rw [handleEvent_argsDone, hargs]
  simp [hA, hp]

/-- Witness for C8 (amended): even with `call_xyz` tracked, the resolved id
is the generated one. -/
theorem claim_C8_generated_id_wins_witness :
    (handleEvent c8State argsDoneEvent).1.currentToolCall.callId =
      some (generateCallId c8State) ∧
    (handleEvent c8State argsDoneEvent).2 =
      [Callback.toolCalled
        (extractToolNameFromArguments
          { c8State.currentToolCall with parsedArguments := some (Json.obj []) })
        (if jsTruthy (Json.obj []) then Json.obj [] else Json.obj [])
        (generateCallId c8State)] :=
  claim_C8_generated_id_wins c8State "\x7b\x7d" (Json.obj []) rfl rfl rfl

/-- Witness for C3: the deltas of the claim's example produce one
`get_weather` call with arguments `{city: "Paris"}`. -/
theorem claim_C3_early_tool_call_once_witness :
    (runEvents clientInit
        ((["\x7b\"ci", "ty\":\"Paris\"\x7d"].map argsDeltaEvent) ++
          [argsDoneEvent, toolCalledBareEvent])).2 =
      [Callback.toolCalled "get_weather" (Json.obj [("city", Json.str "Paris")]) "call_0"] :=
  claim_C3_early_tool_call_once ["\x7b\"ci", "ty\":\"Paris\"\x7d"]
    [("city", Json.str "Paris")] (by simp) rfl

theorem updateTextContent_concat (items0 : List Item) (s t : String) :
    updateTextContent t (items0 ++ [asstMsg s]) = items0 ++ [asstMsg t] := by
  unfold updateTextContent asstMsg
  rw [List.getLast?_concat, List.dropLast_concat]
  simp [contentEntries, entryHasKind, List.findIdx?]

theorem runCallbacks_append (items : List Item) (a b : List Callback) :
    runCallbacks items (a ++ b) = runCallbacks (runCallbacks items a) b := by
  simp [runCallbacks, List.foldl_append]

/-- Folding any text-delta run into the reducer keeps the shape: the state
only changes its message buffer, and the trailing assistant message only
changes its text. -/
theorem textDeltas_reduce (deltas : List String) :
    ∀ (st : ClientState) (items0 : List Item) (s : String),
      ∃ u w : String,
        runEvents st (deltas.map textDeltaEvent) =
          ({ st with messageBuffer := u },
            (runEvents st (deltas.map textDeltaEvent)).2) ∧
        runCallbacks (items0 ++ [asstMsg s]) (runEvents st (deltas.map textDeltaEvent)).2 =
          items0 ++ [asstMsg w] := by
  induction deltas with
  | nil =>
    intro st items0 s
    exact ⟨st.messageBuffer, s, rfl, rfl⟩
  | cons d ds ih =>
    intro st items0 s
    obtain ⟨u, w, h1, h2⟩ :=
      ih { st with messageBuffer := st.messageBuffer ++ d } items0 (st.messageBuffer ++ d)
    refine ⟨u, w, ?_, ?_⟩
    · simp only [List.map_cons, runEvents, handleEvent_textDelta]
      rw [h1]
    · simp only [List.map_cons, runEvents, handleEvent_textDelta]
      rw [runCallbacks_append]
      have h3 : runCallbacks (items0 ++ [asstMsg s])
          [Callback.textDelta d (st.messageBuffer ++ d)] =
          items0 ++ [asstMsg (st.messageBuffer ++ d)] := by
        simp only [runCallbacks, List.foldl_cons, List.foldl_nil, applyCallback]
        exact updateTextContent_concat items0 s (st.messageBuffer ++ d)
      rw [h3]
      exact h2

/-- C4: for every text-delta sequence followed by a text-done event, the
final content of the open assistant message (created at `response.created`)
is exactly the done event's text: the done handler overwrites the
accumulated text instead of appending. -/
theorem claim_C4_text_done_overwrites (deltas : List String) (final : String)
    (items0 : List Item) :
    runCallbacks items0
        (runEvents clientInit
          (responseCreatedEvent :: (deltas.map textDeltaEvent ++ [textDoneEvent final]))).2 =
      items0 ++ [asstMsg final] := by
  obtain ⟨u, w, h1, h2⟩ :=
    textDeltas_reduce deltas { clientInit with messageBuffer := "" } items0 ""
  simp only [runEvents, handleEvent_responseCreated]
  rw [runEvents_append, h1]
  simp only [runEvents, handleEvent_textDone]
  rw [runCallbacks_append]
  have h4 : runCallbacks items0 [Callback.responseStart] = items0 ++ [asstMsg ""] := rfl
  rw [h4, runCallbacks_append, h2]
  exact updateTextContent_concat items0 w final

theorem runDb_append (s : TState) (xs ys : List DbMessage) :
    runDb s (xs ++ ys) =
      match runDb s xs with
      | some s2 => runDb s2 ys
      | none => none := by
  induction xs generalizing s with
  | nil => simp [runDb]
  | cons m ms ih =>
    simp only [List.cons_append, runDb]
    cases h : dbStep s m with
    | some s2 => exact ih s2
    | none => rfl

theorem set_concat_length (l : List Item) (a b : Item) :
    (l ++ [a]).set l.length b = l ++ [b] := by
  induction l with
  | nil => rfl
  | cons x xs ih => simp [List.set, ih]

theorem get_concat_length (l : List Item) (a : Item) :
    (l ++ [a]).get? l.length = some a := by
  induction l with
  | nil => rfl
  | cons x xs ih =>
    simp only [List.cons_append, List.length_cons, List.get?]
    exact ih

/-- C9: a `function_call` record followed by its matching
`function_call_output` record collapses into one `tool_call` item with
status completed and output set; a legacy `{role, content}` record with no
type tag becomes a `message` item with that role and content. -/
theorem claim_C9_collapse_and_legacy (s : TState) (pre : List DbMessage) (s1 : TState)
    (hpre : runDb s pre = some s1) (fc : DbToolCall) (cid : String)
    (hcid : fc.call_id = some cid) (pj : Json) (hpj : fcParsedArguments fc = some pj)
    (out role : String) (content : MsgContent) :
    runDb s (pre ++ [DbMessage.functionCall fc, DbMessage.functionCallOutput cid out,
        DbMessage.legacy role content]) =
      some
        { items := s1.items ++
            [Item.toolCall
              { tool_type := jsOrTracked fc.name fc.tool_type,
                status := "completed", id := fc.id, name := fc.name,
                call_id := some cid, arguments := fc.arguments,
                parsedArguments := some pj, output := some out },
             Item.message role none none content],
          toolCalls := (some cid, s1.items.length) :: s1.toolCalls } := by
  rw [runDb_append, hpre]
  simp only [runDb, dbStep, hpj, hcid]
  simp only [mapLookup, List.find?, beq_self_eq_true, Option.map_some']
  rw [get_concat_length]
  simp [set_concat_length, completeToolCall, List.append_assoc]

theorem mapLookup_after_run (pre : List DbMessage) :
    ∀ (s s1 : TState) (cid : String),
      runDb s pre = some s1 →
      pre.all (fun m => !declaresCallId cid m) = true →
      mapLookup (some cid) s.toolCalls = none →
      mapLookup (some cid) s1.toolCalls = none := by
  induction pre with
  | nil =>
    intro s s1 cid h _ hm
    simp [runDb] at h
    exact h ▸ hm
  | cons m ms ih =>
    intro s s1 cid h hall hm
    simp only [List.all_cons, Bool.and_eq_true] at hall
    simp only [runDb] at h
    cases hd : dbStep s m with
    | none => rw [hd] at h; exact absurd h (by simp)
    | some s2 =>
      rw [hd] at h
      refine ih s2 s1 cid h hall.2 ?_
      cases m with
      | message role id status content =>
        simp only [dbStep] at hd
        cases hd
        exact hm
      | legacy role content =>
        simp only [dbStep] at hd
        cases hd
        exact hm
      | functionCallOutput c o =>
        simp only [dbStep] at hd
        cases hl : mapLookup (some c) s.toolCalls with
        | none => rw [hl] at hd; cases hd; exact hm
        | some idx =>
          rw [hl] at hd
          dsimp only at hd
          cases hg : s.items.get? idx with
          | none => rw [hg] at hd; cases hd; exact hm
          | some it => rw [hg] at hd; cases hd; exact hm
      | functionCall fc =>
        simp only [dbStep] at hd
        cases hq : fcParsedArguments fc with
        | none => rw [hq] at hd; cases hd
        | some pj =>
          rw [hq] at hd
          cases hd
          have hne : (fc.call_id == some cid) = false := by
            have := hall.1
            simpa [declaresCallId] using this
          simp [mapLookup, List.find?, hne] at hm ⊢
          exact hm

/-- C10: a `function_call_output` record whose call id matches no preceding
`function_call` record is silently dropped: it produces no item, raises no
error, and the transformation of every other record is unchanged. -/
theorem claim_C10_orphan_output_dropped (pre post : List DbMessage) (cid out : String)
    (h : pre.all (fun m => !declaresCallId cid m) = true) :
    transformDatabaseMessagesToItems (pre ++ DbMessage.functionCallOutput cid out :: post) =
      transformDatabaseMessagesToItems (pre ++ post) := by
  unfold transformDatabaseMessagesToItems
  rw [runDb_append, runDb_append]
  cases hpre : runDb {} pre with
  | none => rfl
  | some s1 =>
    have hl : mapLookup (some cid) s1.toolCalls = none :=
      mapLookup_after_run pre {} s1 cid hpre h rfl
    simp only [runDb]
    rw [show dbStep s1 (DbMessage.functionCallOutput cid out) = some s1 from by
      simp [dbStep, hl]]

/-- Witness for C9: one function_call/function_call_output pair plus a
legacy record, transformed from the empty state. -/
theorem claim_C9_collapse_and_legacy_witness :
    runDb {} ([DbMessage.functionCall c9Fc, DbMessage.functionCallOutput "c1" "42",
        DbMessage.legacy "user" (MsgContent.str "hi")]) =
      some
        { items :=
            [Item.toolCall
              { tool_type := "get_weather", status := "completed", id := "t1",
                name := some "get_weather", call_id := some "c1",
                arguments := some "\x7b\x7d", parsedArguments := some (Json.obj []),
                output := some "42" },
             Item.message "user" none none (MsgContent.str "hi")],
          toolCalls := [(some "c1", 0)] } :=
  claim_C9_collapse_and_legacy {} [] {} rfl c9Fc "c1" rfl (Json.obj []) rfl "42" "user"
    (MsgContent.str "hi")

/-- Witness for C10: an orphan output between a message and a legacy record
is dropped. -/
theorem claim_C10_orphan_output_dropped_witness :
    transformDatabaseMessagesToItems
        ([DbMessage.message "user" none none (MsgContent.str "hi")] ++
          DbMessage.functionCallOutput "nope" "42" ::
            [DbMessage.legacy "assistant" (MsgContent.str "yo")]) =
      transformDatabaseMessagesToItems
        ([DbMessage.message "user" none none (MsgContent.str "hi")] ++
          [DbMessage.legacy "assistant" (MsgContent.str "yo")]) :=
  claim_C10_orphan_output_dropped
    [DbMessage.message "user" none none (MsgContent.str "hi")]
    [DbMessage.legacy "assistant" (MsgContent.str "yo")] "nope" "42" rfl

end AgentsChat
